import Mathlib

/-!
Verification of the concurrent batch-resolution layer of the `hn_api`
Hacker News client (`src/nonblocking.rs`).

The HTTP transport and JSON decoding are external collaborators; we model one
round trip to a URL as an oracle `String → HttpOutcome α` giving, per URL,
either a decoded body (`none` body = the store's `null` absence signal), a
transport failure, or a decode failure.  The resolver and batch functions of
`nonblocking.rs` are embedded as pure Lean functions over that oracle.
`futures::future::join_all` is modelled by an explicit slot-array reduction
(`fillSlots` / `join_all`) parameterised by the completion order of the
concurrent units, and Rust's `collect::<Result<Vec<_>,_>>()` by
`collectExcept`.
-/

namespace HnApi

/-- Modelled from the spec (§3, §4.1): the `types::Item` resource is not under
`src/`; the batch layer only touches its optional author username
(`item.author()` in `get_authors` / `try_get_authors`), so we keep an opaque
numeric id plus the optional author field. -/
structure Item where
  id : Nat
  author : Option String
deriving DecidableEq, Repr

/-- Modelled from the spec (§3): the `types::User` resource is not under
`src/`; keyed by username, with karma and submitted ids as opaque payload. -/
structure User where
  username : String
  karma : Nat
  submitted : List Nat
deriving DecidableEq, Repr

/-- Modelled from the spec (§7): the `HnClientError` enum is not under `src/`.
`ItemNotFoundError` / `UserNotFoundError` are the `NotFound(key)` cases used
by name in `nonblocking.rs`; `transport` / `decode` wrap the reqwest errors
(which carry the URL of the failed request) produced by `send()` / `json()`. -/
inductive HnClientError where
  | itemNotFoundError (id : Nat)
  | userNotFoundError (username : String)
  | transport (url : String)
  | decode (url : String)
deriving DecidableEq, Repr

/-- Outcome of one HTTP round trip to one URL, as seen after `send()` and
`json()`: a decoded body where `none` is the store's `null` absence signal,
a transport-level failure, or a decode failure. -/
inductive HttpOutcome (α : Type) where
  | ok (body : Option α)
  | transportErr
  | decodeErr
deriving DecidableEq, Repr

/-- `static API_BASE_URL` of `nonblocking.rs`. -/
def API_BASE_URL : String := "https://hacker-news.firebaseio.com/v0"

/-- The URL built by `format!("{}/item/{}.json", API_BASE_URL, id)`. -/
def itemUrl (id : Nat) : String :=
  API_BASE_URL ++ "/item/" ++ toString id ++ ".json"

/-- The URL built by `format!("{}/user/{}.json", API_BASE_URL, username)`. -/
def userUrl (username : String) : String :=
  API_BASE_URL ++ "/user/" ++ username ++ ".json"

/-- Embeds the `u32` type of the `id` parameter of `get_item` /
`try_get_item`: an integer is representable as an item id iff it is below
`2^32`. -/
def itemIdRepresentable (id : Nat) : Bool :=
  decide (id < 2 ^ 32)

/-- `HnClient::try_get_item`: one round trip to `itemUrl id`; a `null` body is
`Ok(None)`, transport and decode failures are mapped into `HnClientError`. -/
def try_get_item (fetchItem : String → HttpOutcome Item) (id : Nat) :
    Except HnClientError (Option Item) :=
  match fetchItem (itemUrl id) with
  | .ok body => .ok body
  | .transportErr => .error (.transport (itemUrl id))
  | .decodeErr => .error (.decode (itemUrl id))

/-- `HnClient::get_item`: `self.try_get_item(id).await?.ok_or(ItemNotFoundError(id))`. -/
def get_item (fetchItem : String → HttpOutcome Item) (id : Nat) :
    Except HnClientError Item :=
  match try_get_item fetchItem id with
  | .error e => .error e
  | .ok none => .error (.itemNotFoundError id)
  | .ok (some item) => .ok item

/-- `HnClient::try_get_user`: one round trip to `userUrl username`. -/
def try_get_user (fetchUser : String → HttpOutcome User) (username : String) :
    Except HnClientError (Option User) :=
  match fetchUser (userUrl username) with
  | .ok body => .ok body
  | .transportErr => .error (.transport (userUrl username))
  | .decodeErr => .error (.decode (userUrl username))

/-- `HnClient::get_user`:
`self.try_get_user(&username).await?.ok_or_else(|| UserNotFoundError(username.to_string()))`. -/
def get_user (fetchUser : String → HttpOutcome User) (username : String) :
    Except HnClientError User :=
  match try_get_user fetchUser username with
  | .error e => .error e
  | .ok none => .error (.userNotFoundError username)
  | .ok (some u) => .ok u

/-- Rust's `into_iter().collect::<Result<Vec<_>, _>>()`: succeeds with the list
of payloads when every element is `Ok`, otherwise fails with the first `Err`
in input order. -/
def collectExcept {ε α : Type} : List (Except ε α) → Except ε (List α)
  | [] => .ok []
  | .error e :: _ => .error e
  | .ok a :: rest => (collectExcept rest).map (a :: ·)

/-- One step of the arena+index reduction behind `join_all`: each element `i`
of `order` is the index of the concurrent unit that completes next, and its
(already determined) outcome `outcomes[i]` is written into slot `i`. -/
def fillSlots {α : Type} (outcomes : List α) :
    List Nat → List (Option α) → List (Option α)
  | [], acc => acc
  | i :: rest, acc => fillSlots outcomes rest (acc.set i (outcomes[i]?))

/-- `futures::future::join_all` under a completion schedule `order`: starting
from an all-empty slot array of the batch size, write each unit's outcome into
its own input index as it completes. -/
def join_all {α : Type} (outcomes : List α) (order : List Nat) :
    List (Option α) :=
  fillSlots outcomes order (List.replicate outcomes.length none)

/-- The join point exposes the batch result only once every slot has settled. -/
def allSome {α : Type} : List (Option α) → Option (List α)
  | [] => some []
  | none :: _ => none
  | some a :: rest => (allSome rest).map (a :: ·)

/-- `HnClient::get_items`: one `get_item` per id, joined and collected;
output order is input order. -/
def get_items (fetchItem : String → HttpOutcome Item) (ids : List Nat) :
    Except HnClientError (List Item) :=
  collectExcept (ids.map (get_item fetchItem))

/-- `HnClient::try_get_items`: one `try_get_item` per id, joined and collected. -/
def try_get_items (fetchItem : String → HttpOutcome Item) (ids : List Nat) :
    Except HnClientError (List (Option Item)) :=
  collectExcept (ids.map (try_get_item fetchItem))

/-- The author-extraction step of `get_authors`:
`item.author().ok_or_else(|| UserNotFoundError("".to_string()))`. -/
def extractAuthor (item : Item) : Except HnClientError String :=
  match item.author with
  | some a => .ok a
  | none => .error (.userNotFoundError "")

/-- `HnClient::get_authors`: extract every author username (failing with
`UserNotFoundError("")` before any user fetch if one is missing), then resolve
all usernames strictly via `get_user`. -/
def get_authors (fetchUser : String → HttpOutcome User) (items : List Item) :
    Except HnClientError (List User) :=
  match collectExcept (items.map extractAuthor) with
  | .error e => .error e
  | .ok usernames => collectExcept (usernames.map (get_user fetchUser))

/-- The per-entry request of `try_get_authors`:
`item.as_ref().and_then(|a| a.author().map(|a| a.to_string()))` — the username
whose user is fetched, or `none` when no fetch is issued for this entry
(the `OptionFuture` is empty). -/
def authorRequest (item : Option Item) : Option String :=
  item.bind Item.author

/-- `Option::transpose` on `Option<Result<_, _>>`. -/
def optTranspose {ε α : Type} : Option (Except ε α) → Except ε (Option α)
  | none => .ok none
  | some (.error e) => .error e
  | some (.ok a) => .ok (some a)

/-- The per-entry resolution of `try_get_authors`: awaiting the entry's
`OptionFuture` then `a.transpose().map(|a| a.flatten())`. -/
def resolveAuthorEntry (fetchUser : String → HttpOutcome User)
    (item : Option Item) : Except HnClientError (Option User) :=
  Except.map Option.join
    (optTranspose ((authorRequest item).map (try_get_user fetchUser)))

/-- `HnClient::try_get_authors`: one optional user fetch per entry, joined,
transposed/flattened per entry, and collected. -/
def try_get_authors (fetchUser : String → HttpOutcome User)
    (items : List (Option Item)) : Except HnClientError (List (Option User)) :=
  collectExcept (items.map (resolveAuthorEntry fetchUser))

/-! ### Concrete fixtures: a small remote store used to exercise the client -/

/-- An item whose `author` field is missing (e.g. a deleted item). -/
def itemNoAuthorW : Item := ⟨1, none⟩

/-- An item authored by `"alice"`. -/
def itemAliceW : Item := ⟨2, some "alice"⟩

/-- An item authored by `"bob"`. -/
def itemBobW : Item := ⟨3, some "bob"⟩

/-- An item whose author username does not resolve to a user. -/
def itemGhostW : Item := ⟨4, some "ghost"⟩

/-- The user `"alice"`. -/
def userAliceW : User := ⟨"alice", 42, [2]⟩

/-- The user `"bob"`. -/
def userBobW : User := ⟨"bob", 7, [3]⟩

/-- A concrete item store: ids 2 and 3 resolve, id 9 is absent (`null` body),
id 7 suffers a transport failure, anything else a decode failure. -/
def fetchItemsW : String → HttpOutcome Item := fun url =>
  if url = itemUrl 2 then .ok (some itemAliceW)
  else if url = itemUrl 3 then .ok (some itemBobW)
  else if url = itemUrl 9 then .ok none
  else if url = itemUrl 7 then .transportErr
  else .decodeErr

/-- A second item store that agrees with `fetchItemsW` on id 2 only. -/
def fetchItemsW2 : String → HttpOutcome Item := fun url =>
  if url = itemUrl 2 then .ok (some itemAliceW) else .transportErr

/-- A concrete user store: `"alice"` and `"bob"` resolve, `"ghost"` is absent
(`null` body), anything else a transport failure. -/
def fetchUsersW : String → HttpOutcome User := fun url =>
  if url = userUrl "alice" then .ok (some userAliceW)
  else if url = userUrl "bob" then .ok (some userBobW)
  else if url = userUrl "ghost" then .ok none
  else .transportErr

/-- A second user store that agrees with `fetchUsersW` on `"alice"` only. -/
def fetchUsersW2 : String → HttpOutcome User := fun url =>
  if url = userUrl "alice" then .ok (some userAliceW) else .decodeErr

/-- The spec's tolerant-author scenario: item 2 (0-indexed) absent, item 0
present without an author field. -/
def scenarioItemsW : List (Option Item) :=
  [some itemNoAuthorW, some itemAliceW, none, some itemBobW]

/-! ### Basic lemmas about `collectExcept` -/

theorem collectExcept_eq_ok {ε α : Type} :
    ∀ {l : List (Except ε α)} {out : List α},
      collectExcept l = .ok out → l = out.map Except.ok
  | [], out, h => by
    simp only [collectExcept, Except.ok.injEq] at h
    simp [← h]
  | .error e :: rest, out, h => by
    simp [collectExcept] at h
  | .ok a :: rest, out, h => by
    simp only [collectExcept] at h
    cases hrest : collectExcept rest with
    | error e => rw [hrest] at h; simp [Except.map] at h
    | ok out2 =>
      rw [hrest] at h
      simp only [Except.map, Except.ok.injEq] at h
      subst h
      simp [collectExcept_eq_ok hrest]

theorem collectExcept_map_ok {ε α : Type} (out : List α) :
    collectExcept (ε := ε) (out.map Except.ok) = .ok out := by
  induction out with
  | nil => rfl
  | cons a rest ih => simp [collectExcept, ih, Except.map]

theorem collectExcept_ok_iff {ε α : Type} {l : List (Except ε α)}
    {out : List α} :
    collectExcept l = .ok out ↔ l = out.map Except.ok := by
  constructor
  · exact collectExcept_eq_ok
  · rintro rfl; exact collectExcept_map_ok out

theorem collectExcept_ok_getElem {ε α : Type} {l : List (Except ε α)}
    {out : List α} (h : collectExcept l = .ok out) :
    out.length = l.length ∧
      ∀ i (h1 : i < l.length) (h2 : i < out.length),
        l[i] = Except.ok out[i] := by
  obtain rfl := collectExcept_eq_ok h
  refine ⟨by simp, fun i h1 h2 => ?_⟩
  simp

theorem collectExcept_append_error {ε α : Type} :
    ∀ {l1 : List (Except ε α)} (e : ε) (l2 : List (Except ε α)),
      (∀ x ∈ l1, ∃ a, x = Except.ok a) →
      collectExcept (l1 ++ Except.error e :: l2) = .error e
  | [], e, l2, _ => by simp [collectExcept]
  | x :: rest, e, l2, h => by
    obtain ⟨a, rfl⟩ := h x (by simp)
    have ih := collectExcept_append_error e l2
      (fun y hy => h y (List.mem_cons_of_mem _ hy))
    simp [collectExcept, ih, Except.map]

theorem collectExcept_error_of_mem {ε α : Type} {e : ε} :
    ∀ {l : List (Except ε α)}, Except.error e ∈ l →
      ∃ e2, collectExcept l = .error e2
  | [], h => by simp at h
  | .error e2 :: rest, _ => ⟨e2, rfl⟩
  | .ok a :: rest, h => by
    have hmem : Except.error e ∈ rest := by
      rcases List.mem_cons.mp h with h1 | h1
      · exact absurd h1 (by simp)
      · exact h1
    obtain ⟨e2, he2⟩ := collectExcept_error_of_mem hmem
    exact ⟨e2, by simp [collectExcept, he2, Except.map]⟩

/-! ### The arena+index reduction behind `join_all` -/

theorem fillSlots_length {α : Type} (outcomes : List α) :
    ∀ (order : List Nat) (acc : List (Option α)),
      (fillSlots outcomes order acc).length = acc.length
  | [], acc => rfl
  | i :: rest, acc => by
    rw [fillSlots, fillSlots_length outcomes rest]
    simp

theorem fillSlots_getElem? {α : Type} (outcomes : List α) :
    ∀ (order : List Nat) (acc : List (Option α)) (j : Nat),
      j < acc.length →
      (fillSlots outcomes order acc)[j]? =
        if j ∈ order then some (outcomes[j]?) else acc[j]?
  | [], acc, j, hj => by simp [fillSlots]
  | i :: rest, acc, j, hj => by
    rw [fillSlots]
    rw [fillSlots_getElem? outcomes rest _ j (by simpa using hj)]
    by_cases hmem : j ∈ rest
    · simp [hmem]
    · by_cases hij : i = j
      · subst hij
        simp [hmem, List.getElem?_set_eq_of_lt _ hj]
      · rw [List.getElem?_set_ne hij]
        simp [hmem, hij, Ne.symm hij]

theorem allSome_map_some {α : Type} (l : List α) :
    allSome (l.map some) = some l := by
  induction l with
  | nil => rfl
  | cons a rest ih => simp [allSome, ih]

theorem join_all_perm {α : Type} (outcomes : List α) (order : List Nat)
    (h : order.Perm (List.range outcomes.length)) :
    allSome (join_all outcomes order) = some outcomes := by
  have hslots : join_all outcomes order = outcomes.map some := by
    apply List.ext_getElem?
    intro j
    by_cases hj : j < outcomes.length
    · rw [join_all, fillSlots_getElem? outcomes order _ j (by simpa using hj)]
      have hmem : j ∈ order := by
        rw [h.mem_iff, List.mem_range]
        exact hj
      simp [hmem, List.getElem?_eq_getElem hj]
    · have h1 : (join_all outcomes order).length ≤ j := by
        rw [join_all, fillSlots_length]
        simpa using Nat.le_of_not_lt hj
      have h2 : (outcomes.map some).length ≤ j := by
        simpa using Nat.le_of_not_lt hj
      rw [List.getElem?_eq_none h1, List.getElem?_eq_none h2]
  rw [hslots]
  exact allSome_map_some outcomes

/-! ### Derived lemmas about the resolvers -/

theorem collect_map_ok_getElem {ε α β : Type} {f : α → Except ε β}
    {l : List α} {out : List β}
    (h : collectExcept (l.map f) = .ok out) :
    out.length = l.length ∧
      ∀ i (h1 : i < l.length) (h2 : i < out.length),
        f l[i] = Except.ok out[i] := by
  obtain ⟨hlen, hidx⟩ := collectExcept_ok_getElem h
  refine ⟨by simpa using hlen, fun i h1 h2 => ?_⟩
  have := hidx i (by simpa using h1) h2
  simpa using this

theorem collectExcept_map_first_error {ε α β : Type} (f : α → Except ε β) :
    ∀ (l : List α) (j : Nat) (hj : j < l.length) (e : ε),
      f l[j] = .error e →
      (∀ i (hi : i < l.length), i < j → ∃ b, f l[i] = .ok b) →
      collectExcept (l.map f) = .error e
  | [], j, hj, e, herr, hok => absurd hj (by simp)
  | a :: rest, 0, hj, e, herr, hok => by
    simp only [List.getElem_cons_zero] at herr
    simp [collectExcept, herr]
  | a :: rest, j + 1, hj, e, herr, hok => by
    obtain ⟨b, hb⟩ := hok 0 (by simp) (by omega)
    simp only [List.getElem_cons_zero] at hb
    have ih := collectExcept_map_first_error f rest j (by simpa using hj) e
      (by simpa using herr)
      (fun i hi hlt => by
        have := hok (i + 1) (by simpa using hi) (by omega)
        simpa using this)
    simp [collectExcept, hb, ih, Except.map]

theorem collectExcept_map_ok_of_forall {ε α β : Type} (f : α → Except ε β) :
    ∀ (l : List α), (∀ a ∈ l, ∃ b, f a = .ok b) →
      ∃ out, collectExcept (l.map f) = .ok out
  | [], _ => ⟨[], rfl⟩
  | a :: rest, h => by
    obtain ⟨b, hb⟩ := h a (by simp)
    obtain ⟨out, hout⟩ := collectExcept_map_ok_of_forall f rest
      (fun y hy => h y (List.mem_cons_of_mem _ hy))
    exact ⟨b :: out, by simp [collectExcept, hb, hout, Except.map]⟩

theorem try_get_item_ok_iff {fi : String → HttpOutcome Item} {id : Nat}
    {r : Option Item} :
    try_get_item fi id = .ok r ↔ fi (itemUrl id) = .ok r := by
  unfold try_get_item
  cases fi (itemUrl id) <;> simp

theorem try_get_user_ok_iff {fu : String → HttpOutcome User} {name : String}
    {r : Option User} :
    try_get_user fu name = .ok r ↔ fu (userUrl name) = .ok r := by
  unfold try_get_user
  cases fu (userUrl name) <;> simp

theorem extractAuthor_eq_ok {item : Item} {a : String}
    (h : extractAuthor item = .ok a) : item.author = some a := by
  unfold extractAuthor at h
  split at h
  · rename_i a2 heq
    rw [heq]
    exact congrArg some (Except.ok.inj h)
  · simp at h

theorem extract_authors_error :
    ∀ {items : List Item}, (∃ it ∈ items, it.author = none) →
      collectExcept (items.map extractAuthor) =
        .error (.userNotFoundError "")
  | [], h => by simp at h
  | it :: rest, h => by
    cases hcase : it.author with
    | none =>
      simp only [List.map_cons]
      rw [show extractAuthor it = .error (.userNotFoundError "") by
        unfold extractAuthor; rw [hcase]]
      rfl
    | some a =>
      have hrest : ∃ it2 ∈ rest, it2.author = none := by
        obtain ⟨it2, hmem, hnone⟩ := h
        rcases List.mem_cons.mp hmem with rfl | hmem2
        · rw [hcase] at hnone; simp at hnone
        · exact ⟨it2, hmem2, hnone⟩
      have ih := extract_authors_error hrest
      simp only [List.map_cons]
      rw [show extractAuthor it = .ok a by unfold extractAuthor; rw [hcase]]
      simp [collectExcept, ih, Except.map]

theorem extract_authors_ok :
    ∀ {items : List Item}, (∀ it ∈ items, (it.author).isSome) →
      collectExcept (items.map extractAuthor) =
        .ok (items.filterMap Item.author)
  | [], _ => rfl
  | it :: rest, h => by
    obtain ⟨a, hcase⟩ := Option.isSome_iff_exists.mp (h it (by simp))
    have ih := extract_authors_ok
      (fun y hy => h y (List.mem_cons_of_mem _ hy))
    simp only [List.map_cons, List.filterMap_cons]
    rw [show extractAuthor it = .ok a by unfold extractAuthor; rw [hcase]]
    rw [hcase]
    simp [collectExcept, ih, Except.map]

theorem resolveAuthorEntry_of_none {fu : String → HttpOutcome User}
    {item : Option Item} (h : authorRequest item = none) :
    resolveAuthorEntry fu item = .ok none := by
  unfold resolveAuthorEntry
  rw [h]
  rfl

theorem resolveAuthorEntry_of_some {fu : String → HttpOutcome User}
    {item : Option Item} {name : String} (h : authorRequest item = some name) :
    resolveAuthorEntry fu item =
      Except.map Option.join (optTranspose (some (try_get_user fu name))) := by
  unfold resolveAuthorEntry
  rw [h]
  rfl

/-! ### Claims -/

/-- C1: every batch operation (`get_items`, `try_get_items`, `get_authors`,
`try_get_authors`) that succeeds returns an output sequence of the same length
as its input, with `output[i]` the resolution of `input[i]`; and the `join_all`
slot reduction yields the input-ordered outcome list under every completion
order, so the result is independent of the order in which the concurrent
resolutions complete. -/
theorem claimC1_batch_index_correspondence :
    (∀ {α : Type} (outcomes : List α) (order : List Nat),
        order.Perm (List.range outcomes.length) →
        allSome (join_all outcomes order) = some outcomes)
    ∧ (∀ (fi : String → HttpOutcome Item) (ids : List Nat) (out : List Item),
        get_items fi ids = .ok out →
        out.length = ids.length ∧
          ∀ i (h1 : i < ids.length) (h2 : i < out.length),
            get_item fi ids[i] = .ok out[i])
    ∧ (∀ (fi : String → HttpOutcome Item) (ids : List Nat)
          (out : List (Option Item)),
        try_get_items fi ids = .ok out →
        out.length = ids.length ∧
          ∀ i (h1 : i < ids.length) (h2 : i < out.length),
            try_get_item fi ids[i] = .ok out[i])
    ∧ (∀ (fu : String → HttpOutcome User) (items : List Item)
          (out : List User),
        get_authors fu items = .ok out →
        out.length = items.length ∧
          ∀ i (h1 : i < items.length) (h2 : i < out.length),
            ∃ a, items[i].author = some a ∧ get_user fu a = .ok out[i])
    ∧ (∀ (fu : String → HttpOutcome User) (items : List (Option Item))
          (out : List (Option User)),
        try_get_authors fu items = .ok out →
        out.length = items.length ∧
          ∀ i (h1 : i < items.length) (h2 : i < out.length),
            resolveAuthorEntry fu items[i] = .ok out[i]) := by
  refine ⟨fun outcomes order h => join_all_perm outcomes order h,
    fun fi ids out h => collect_map_ok_getElem h,
    fun fi ids out h => collect_map_ok_getElem h,
    fun fu items out h => ?_,
    fun fu items out h => collect_map_ok_getElem h⟩
  unfold get_authors at h
  split at h
  · simp at h
  · rename_i usernames heq
    obtain ⟨hlen1, hidx1⟩ := collect_map_ok_getElem heq
    obtain ⟨hlen2, hidx2⟩ := collect_map_ok_getElem h
    refine ⟨by omega, fun i h1 h2 => ?_⟩
    have hb : i < usernames.length := by omega
    exact ⟨usernames[i], extractAuthor_eq_ok (hidx1 i h1 hb), hidx2 i hb h2⟩

/-- C1 witness: the slot reduction at completion order `[1, 0]`, and a concrete
two-element `get_items` batch with index correspondence. -/
theorem claimC1_witness :
    allSome (join_all [(10 : Nat), 20] [1, 0]) = some [10, 20] ∧
    ([itemAliceW, itemBobW].length = [(2 : Nat), 3].length ∧
      ∀ i (h1 : i < [(2 : Nat), 3].length)
        (h2 : i < [itemAliceW, itemBobW].length),
        get_item fetchItemsW ([(2 : Nat), 3])[i] =
          .ok ([itemAliceW, itemBobW])[i]) :=
  ⟨claimC1_batch_index_correspondence.1 [10, 20] [1, 0] (by decide),
   claimC1_batch_index_correspondence.2.1 fetchItemsW [2, 3]
     [itemAliceW, itemBobW] (by rfl)⟩

/-- C2: if the strict resolution of the id at position `j` fails (not-found or
transport/decode) and everything before `j` succeeds, `get_items` fails with
exactly that error and never returns a result value alongside it. -/
theorem claimC2_get_items_fail_fast :
    ∀ (fi : String → HttpOutcome Item) (ids : List Nat) (j : Nat)
      (hj : j < ids.length) (e : HnClientError),
      get_item fi ids[j] = .error e →
      (∀ i (hi : i < ids.length), i < j → ∃ it, get_item fi ids[i] = .ok it) →
      get_items fi ids = .error e ∧ ∀ out, get_items fi ids ≠ .ok out := by
  intro fi ids j hj e herr hok
  have hfail : get_items fi ids = .error e :=
    collectExcept_map_first_error (get_item fi) ids j hj e herr hok
  exact ⟨hfail, fun out hcontra => by rw [hfail] at hcontra; simp at hcontra⟩

/-- C2 witness: in the batch `[2, 9]` id 9 is reported absent by the store, so
`get_items` fails with `ItemNotFoundError 9` and yields no result value. -/
theorem claimC2_witness :
    get_items fetchItemsW [2, 9] = .error (.itemNotFoundError 9) ∧
    ∀ out, get_items fetchItemsW [2, 9] ≠ .ok out :=
  claimC2_get_items_fail_fast fetchItemsW [2, 9] 1 (by decide)
    (.itemNotFoundError 9) (by rfl)
    (fun i hi hlt => ⟨itemAliceW, by
      have h0 : i = 0 := by omega
      subst h0
      show get_item fetchItemsW 2 = _
      rfl⟩)

/-- C3: `try_get_items` succeeds whenever every round trip completes (absent
ids yield `none` slots, with index correspondence), and fails as a whole as
soon as any single round trip suffers a transport or decode failure. -/
theorem claimC3_try_get_items_tolerant :
    ∀ (fi : String → HttpOutcome Item) (ids : List Nat),
      ((∀ id ∈ ids, ∃ body, fi (itemUrl id) = .ok body) →
        ∃ out, try_get_items fi ids = .ok out ∧
          out.length = ids.length ∧
          ∀ i (h1 : i < ids.length) (h2 : i < out.length),
            fi (itemUrl ids[i]) = .ok out[i])
      ∧ (∀ j (hj : j < ids.length),
          fi (itemUrl ids[j]) = .transportErr ∨
            fi (itemUrl ids[j]) = .decodeErr →
          ∃ e, try_get_items fi ids = .error e ∧
            ∀ out, try_get_items fi ids ≠ .ok out) := by
  intro fi ids
  constructor
  · intro hall
    obtain ⟨out, hout⟩ := collectExcept_map_ok_of_forall (try_get_item fi) ids
      (fun id hid => by
        obtain ⟨body, hbody⟩ := hall id hid
        exact ⟨body, try_get_item_ok_iff.mpr hbody⟩)
    obtain ⟨hlen, hidx⟩ := collect_map_ok_getElem hout
    exact ⟨out, hout, hlen, fun i h1 h2 =>
      try_get_item_ok_iff.mp (hidx i h1 h2)⟩
  · intro j hj hfail
    have herr : ∃ e0, try_get_item fi ids[j] = .error e0 := by
      unfold try_get_item
      rcases hfail with h | h <;> rw [h] <;> exact ⟨_, rfl⟩
    obtain ⟨e0, he0⟩ := herr
    have hmem : Except.error e0 ∈ ids.map (try_get_item fi) := by
      rw [← he0]
      exact List.mem_map_of_mem _ (List.getElem_mem hj)
    obtain ⟨e2, he2⟩ := collectExcept_error_of_mem hmem
    have hfail2 : try_get_items fi ids = .error e2 := he2
    exact ⟨e2, hfail2, fun out hcontra => by
      rw [hfail2] at hcontra; simp at hcontra⟩

/-- C3 witness: the batch `[2, 9]` (id 9 absent) succeeds with a `none` slot
for id 9; the batch `[2, 7]` (id 7 transport failure) fails as a whole. -/
theorem claimC3_witness :
    (∃ out, try_get_items fetchItemsW [2, 9] = .ok out ∧
      out.length = [(2 : Nat), 9].length ∧
      ∀ i (h1 : i < [(2 : Nat), 9].length) (h2 : i < out.length),
        fetchItemsW (itemUrl ([(2 : Nat), 9])[i]) = .ok out[i]) ∧
    (∃ e, try_get_items fetchItemsW [2, 7] = .error e ∧
      ∀ out, try_get_items fetchItemsW [2, 7] ≠ .ok out) :=
  ⟨(claimC3_try_get_items_tolerant fetchItemsW [2, 9]).1
    (fun id hid => by
      rcases List.mem_pair.mp hid with rfl | rfl
      · exact ⟨some itemAliceW, rfl⟩
      · exact ⟨none, rfl⟩),
   (claimC3_try_get_items_tolerant fetchItemsW [2, 7]).2 1 (by decide)
    (Or.inl (by show fetchItemsW (itemUrl 7) = _; rfl))⟩

/-- C4: the strict single resolvers convert a `null` body into
`NotFound` carrying the requested key, propagate transport and decode
failures tagged with the request URL, return the resource on a non-null body,
and succeed only when the store actually reported a present resource. -/
theorem claimC4_strict_single :
    ∀ (fi : String → HttpOutcome Item) (fu : String → HttpOutcome User)
      (id : Nat) (name : String),
      (fi (itemUrl id) = .ok none →
        get_item fi id = .error (.itemNotFoundError id)) ∧
      (fi (itemUrl id) = .transportErr →
        get_item fi id = .error (.transport (itemUrl id))) ∧
      (fi (itemUrl id) = .decodeErr →
        get_item fi id = .error (.decode (itemUrl id))) ∧
      (∀ it, fi (itemUrl id) = .ok (some it) → get_item fi id = .ok it) ∧
      (∀ it, get_item fi id = .ok it → fi (itemUrl id) = .ok (some it)) ∧
      (fu (userUrl name) = .ok none →
        get_user fu name = .error (.userNotFoundError name)) ∧
      (fu (userUrl name) = .transportErr →
        get_user fu name = .error (.transport (userUrl name))) ∧
      (fu (userUrl name) = .decodeErr →
        get_user fu name = .error (.decode (userUrl name))) ∧
      (∀ u, fu (userUrl name) = .ok (some u) → get_user fu name = .ok u) ∧
      (∀ u, get_user fu name = .ok u → fu (userUrl name) = .ok (some u)) := by
  intro fi fu id name
  refine ⟨fun h => ?_, fun h => ?_, fun h => ?_, fun it h => ?_,
    fun it h => ?_, fun h => ?_, fun h => ?_, fun h => ?_, fun u h => ?_,
    fun u h => ?_⟩
  · unfold get_item try_get_item; rw [h]
  · unfold get_item try_get_item; rw [h]
  · unfold get_item try_get_item; rw [h]
  · unfold get_item try_get_item; rw [h]
  · cases hcase : fi (itemUrl id) with
    | ok body =>
      cases body with
      | none =>
        have hred : get_item fi id = .error (.itemNotFoundError id) := by
          unfold get_item try_get_item; rw [hcase]
        rw [hred] at h; simp at h
      | some it2 =>
        have hred : get_item fi id = .ok it2 := by
          unfold get_item try_get_item; rw [hcase]
        rw [hred] at h
        injection h with h2
        subst h2
        rfl
    | transportErr =>
      have hred : get_item fi id = .error (.transport (itemUrl id)) := by
        unfold get_item try_get_item; rw [hcase]
      rw [hred] at h; simp at h
    | decodeErr =>
      have hred : get_item fi id = .error (.decode (itemUrl id)) := by
        unfold get_item try_get_item; rw [hcase]
      rw [hred] at h; simp at h
  · unfold get_user try_get_user; rw [h]
  · unfold get_user try_get_user; rw [h]
  · unfold get_user try_get_user; rw [h]
  · unfold get_user try_get_user; rw [h]
  · cases hcase : fu (userUrl name) with
    | ok body =>
      cases body with
      | none =>
        have hred : get_user fu name = .error (.userNotFoundError name) := by
          unfold get_user try_get_user; rw [hcase]
        rw [hred] at h; simp at h
      | some u2 =>
        have hred : get_user fu name = .ok u2 := by
          unfold get_user try_get_user; rw [hcase]
        rw [hred] at h
        injection h with h2
        subst h2
        rfl
    | transportErr =>
      have hred : get_user fu name = .error (.transport (userUrl name)) := by
        unfold get_user try_get_user; rw [hcase]
      rw [hred] at h; simp at h
    | decodeErr =>
      have hred : get_user fu name = .error (.decode (userUrl name)) := by
        unfold get_user try_get_user; rw [hcase]
      rw [hred] at h; simp at h

/-- C4 witness: id 9 (absent) gives `ItemNotFoundError 9`, id 7 a transport
error tagged with its URL, user `"ghost"` (absent) gives
`UserNotFoundError "ghost"`, and id 2 resolves strictly. -/
theorem claimC4_witness :
    get_item fetchItemsW 9 = .error (.itemNotFoundError 9) ∧
    get_item fetchItemsW 7 = .error (.transport (itemUrl 7)) ∧
    get_user fetchUsersW "ghost" = .error (.userNotFoundError "ghost") ∧
    get_item fetchItemsW 2 = .ok itemAliceW :=
  ⟨(claimC4_strict_single fetchItemsW fetchUsersW 9 "ghost").1 (by rfl),
   (claimC4_strict_single fetchItemsW fetchUsersW 7 "ghost").2.1 (by rfl),
   (claimC4_strict_single fetchItemsW fetchUsersW 9
     "ghost").2.2.2.2.2.1 (by rfl),
   (claimC4_strict_single fetchItemsW fetchUsersW 2 "ghost").2.2.2.1
     itemAliceW (by rfl)⟩

/-- C5: `try_get_authors` output has the length of its input; every entry
whose item is absent or has no author field yields an absent output while no
user fetch is performed for it (its resolution is `ok none` under every user
store); and on success each slot is the resolution of its own entry. -/
theorem claimC5_try_get_authors_absent_entries :
    ∀ (fu : String → HttpOutcome User) (items : List (Option Item)),
      (∀ out, try_get_authors fu items = .ok out →
        out.length = items.length ∧
        ∀ i (h1 : i < items.length) (h2 : i < out.length),
          resolveAuthorEntry fu items[i] = .ok out[i]) ∧
      (∀ i (h1 : i < items.length), authorRequest items[i] = none →
        (∀ fu2, resolveAuthorEntry fu2 items[i] = .ok none) ∧
        ∀ out, try_get_authors fu items = .ok out →
          ∀ (h2 : i < out.length), out[i] = none) := by
  intro fu items
  constructor
  · intro out h
    obtain ⟨hlen, hidx⟩ := collect_map_ok_getElem h
    exact ⟨hlen, hidx⟩
  · intro i h1 hreq
    refine ⟨fun fu2 => resolveAuthorEntry_of_none hreq, fun out h h2 => ?_⟩
    obtain ⟨hlen, hidx⟩ := collect_map_ok_getElem h
    have hok := hidx i h1 h2
    rw [resolveAuthorEntry_of_none hreq] at hok
    exact (Except.ok.inj hok).symm

/-- C5 witness: the spec's scenario — item 2 (0-indexed) absent and item 0
without an author — yields absent slots 0 and 2, with the other slots
populated from the corresponding users. -/
theorem claimC5_witness :
    (∀ fu2, resolveAuthorEntry fu2 (scenarioItemsW[0]) = .ok none) ∧
    (∀ fu2, resolveAuthorEntry fu2 (scenarioItemsW[2]) = .ok none) ∧
    try_get_authors fetchUsersW scenarioItemsW =
      .ok [none, some userAliceW, none, some userBobW] :=
  ⟨((claimC5_try_get_authors_absent_entries fetchUsersW scenarioItemsW).2
      0 (by decide) (by rfl)).1,
   ((claimC5_try_get_authors_absent_entries fetchUsersW scenarioItemsW).2
      2 (by decide) (by rfl)).1,
   by rfl⟩

/-- C6: if any item passed to `get_authors` has no author field, the whole
call fails with `UserNotFoundError ""` under every user store — a local
failure issued before any user fetch; and only when every item yields a
username are those usernames resolved strictly via `get_user`. -/
theorem claimC6_get_authors_local_failure :
    ∀ (fu : String → HttpOutcome User) (items : List Item),
      ((∃ it ∈ items, it.author = none) →
        ∀ fu2, get_authors fu2 items = .error (.userNotFoundError "")) ∧
      ((∀ it ∈ items, (it.author).isSome) →
        get_authors fu items =
          collectExcept ((items.filterMap Item.author).map (get_user fu))) := by
  intro fu items
  constructor
  · intro h fu2
    unfold get_authors
    rw [extract_authors_error h]
  · intro h
    unfold get_authors
    rw [extract_authors_ok h]

/-- C6 witness: a batch containing the author-less item fails with
`UserNotFoundError ""` under every user store; a batch whose items all carry
authors reduces to the strict resolution of the extracted usernames. -/
theorem claimC6_witness :
    (∀ fu2, get_authors fu2 [itemAliceW, itemNoAuthorW] =
      .error (.userNotFoundError "")) ∧
    get_authors fetchUsersW [itemAliceW, itemBobW] =
      .ok [userAliceW, userBobW] :=
  ⟨(claimC6_get_authors_local_failure fetchUsersW
      [itemAliceW, itemNoAuthorW]).1 ⟨itemNoAuthorW, by simp, rfl⟩,
   by
    rw [(claimC6_get_authors_local_failure fetchUsersW
      [itemAliceW, itemBobW]).2 (by decide)]
    rfl⟩

/-- C7: when in a two-id strict batch the first id resolves and the second
id's round trip fails at the transport level, `get_items` fails with a
`Transport` error tagged with the failing id's request URL, and no result
value is returned. -/
theorem claimC7_transport_error_tagged :
    ∀ (fi : String → HttpOutcome Item) (a b : Nat) (it : Item),
      fi (itemUrl a) = .ok (some it) →
      fi (itemUrl b) = .transportErr →
      get_items fi [a, b] = .error (.transport (itemUrl b)) ∧
      ∀ out, get_items fi [a, b] ≠ .ok out := by
  intro fi a b it ha hb
  have hga : get_item fi a = .ok it := by
    unfold get_item try_get_item; rw [ha]
  have hgb : get_item fi b = .error (.transport (itemUrl b)) := by
    unfold get_item try_get_item; rw [hb]
  have hfail : get_items fi [a, b] = .error (.transport (itemUrl b)) := by
    unfold get_items
    simp [collectExcept, hga, hgb, Except.map]
  exact ⟨hfail, fun out hcontra => by rw [hfail] at hcontra; simp at hcontra⟩

/-- C7 witness: in the batch `[2, 7]` id 2 resolves and id 7 times out, so
`get_items` fails with the transport error tagged with id 7's URL. -/
theorem claimC7_witness :
    get_items fetchItemsW [2, 7] = .error (.transport (itemUrl 7)) ∧
    ∀ out, get_items fetchItemsW [2, 7] ≠ .ok out :=
  claimC7_transport_error_tagged fetchItemsW 2 7 itemAliceW rfl rfl

/-- C8 counterexample: `2 ^ 32` is a non-negative integer that is not an
acceptable item id — the `u32` id type of `get_item` / `try_get_item` bounds
client-side ids by `2 ^ 32`. -/
theorem claimC8_counterexample :
    itemIdRepresentable (2 ^ 32) = false := by decide

/-- C8 (amended): every non-negative integer below `2 ^ 32` (the bound imposed
by the `u32` id type) is an acceptable item id — no further client-side
validation exists, and the outcome is determined solely by the remote store's
response at the id's URL. -/
theorem claimC8_amended_ids_remote_determined :
    ∀ (fi fi2 : String → HttpOutcome Item) (id : Nat),
      id < 2 ^ 32 →
      itemIdRepresentable id = true ∧
      (fi (itemUrl id) = fi2 (itemUrl id) →
        try_get_item fi id = try_get_item fi2 id ∧
        get_item fi id = get_item fi2 id) ∧
      (∀ body, fi (itemUrl id) = .ok body → try_get_item fi id = .ok body) := by
  intro fi fi2 id hid
  refine ⟨by simpa [itemIdRepresentable] using hid, fun hagree => ?_, ?_⟩
  · have h1 : try_get_item fi id = try_get_item fi2 id := by
      unfold try_get_item
      rw [hagree]
    exact ⟨h1, by unfold get_item; rw [h1]⟩
  · intro body hbody
    unfold try_get_item
    rw [hbody]

/-- C8 witness: id 3 is below the `u32` bound and resolves to whatever the
store returns at its URL. -/
theorem claimC8_witness :
    itemIdRepresentable 3 = true ∧
    try_get_item fetchItemsW 3 = .ok (some itemBobW) :=
  ⟨(claimC8_amended_ids_remote_determined fetchItemsW fetchItemsW 3
      (by norm_num)).1,
   (claimC8_amended_ids_remote_determined fetchItemsW fetchItemsW 3
      (by norm_num)).2.2 (some itemBobW) rfl⟩

/-- C9: every resolver is a pure function of the store's response at its own
key: two calls with the same key against unchanged remote responses yield
equal results. -/
theorem claimC9_resolvers_idempotent :
    ∀ (fi fi2 : String → HttpOutcome Item) (fu fu2 : String → HttpOutcome User)
      (id : Nat) (name : String),
      (fi (itemUrl id) = fi2 (itemUrl id) →
        get_item fi id = get_item fi2 id ∧
        try_get_item fi id = try_get_item fi2 id) ∧
      (fu (userUrl name) = fu2 (userUrl name) →
        get_user fu name = get_user fu2 name ∧
        try_get_user fu name = try_get_user fu2 name) := by
  intro fi fi2 fu fu2 id name
  constructor
  · intro hagree
    have h1 : try_get_item fi id = try_get_item fi2 id := by
      unfold try_get_item
      rw [hagree]
    exact ⟨by unfold get_item; rw [h1], h1⟩
  · intro hagree
    have h1 : try_get_user fu name = try_get_user fu2 name := by
      unfold try_get_user
      rw [hagree]
    exact ⟨by unfold get_user; rw [h1], h1⟩

/-- C9 witness: `fetchItemsW` and `fetchItemsW2` agree on id 2, and
`fetchUsersW` and `fetchUsersW2` agree on `"alice"`, so all four resolvers
coincide there. -/
theorem claimC9_witness :
    (get_item fetchItemsW 2 = get_item fetchItemsW2 2 ∧
      try_get_item fetchItemsW 2 = try_get_item fetchItemsW2 2) ∧
    (get_user fetchUsersW "alice" = get_user fetchUsersW2 "alice" ∧
      try_get_user fetchUsersW "alice" = try_get_user fetchUsersW2 "alice") :=
  ⟨(claimC9_resolvers_idempotent fetchItemsW fetchItemsW2 fetchUsersW
      fetchUsersW2 2 "alice").1 rfl,
   (claimC9_resolvers_idempotent fetchItemsW fetchItemsW2 fetchUsersW
      fetchUsersW2 2 "alice").2 rfl⟩

/-- C10: in `try_get_authors`, an entry whose item is present with an author
username that the store reports absent (`null` body on the user fetch)
resolves to `ok none` — the inner and outer optionals are flattened — its
output slot is absent on success, and the batch still succeeds whenever every
entry resolves. -/
theorem claimC10_user_absence_flattens :
    ∀ (fu : String → HttpOutcome User) (items : List (Option Item))
      (i : Nat) (h1 : i < items.length) (it : Item) (name : String),
      items[i] = some it →
      it.author = some name →
      fu (userUrl name) = .ok none →
      resolveAuthorEntry fu items[i] = .ok none ∧
      (∀ out, try_get_authors fu items = .ok out →
        ∀ (h2 : i < out.length), out[i] = none) ∧
      ((∀ entry ∈ items, ∃ r, resolveAuthorEntry fu entry = .ok r) →
        ∃ out, try_get_authors fu items = .ok out) := by
  intro fu items i h1 it name hitem hauthor hfu
  have hreq : authorRequest items[i] = some name := by
    rw [hitem]
    unfold authorRequest
    simp [hauthor]
  have hentry : resolveAuthorEntry fu items[i] = .ok none := by
    rw [resolveAuthorEntry_of_some hreq]
    have huser : try_get_user fu name = .ok none := by
      unfold try_get_user
      rw [hfu]
    rw [huser]
    rfl
  refine ⟨hentry, fun out h h2 => ?_, fun hall => ?_⟩
  · obtain ⟨hlen, hidx⟩ := collect_map_ok_getElem h
    have hok := hidx i h1 h2
    rw [hentry] at hok
    exact (Except.ok.inj hok).symm
  · exact collectExcept_map_ok_of_forall (resolveAuthorEntry fu) items hall

/-- C10 witness: the single-entry batch over the item authored by `"ghost"`
(a username the store reports absent) succeeds with an absent slot. -/
theorem claimC10_witness :
    resolveAuthorEntry fetchUsersW ([some itemGhostW][0]) = .ok none ∧
    (∀ out, try_get_authors fetchUsersW [some itemGhostW] = .ok out →
      ∀ (h2 : 0 < out.length), out[0] = none) ∧
    (∃ out, try_get_authors fetchUsersW [some itemGhostW] = .ok out) := by
  obtain ⟨ha, hb, hc⟩ := claimC10_user_absence_flattens fetchUsersW
    [some itemGhostW] 0 (by decide) itemGhostW "ghost" rfl rfl (by rfl)
  have ha2 : resolveAuthorEntry fetchUsersW (some itemGhostW) = .ok none := by
    simpa using ha
  exact ⟨ha, hb, hc (fun entry hmem => by
    rw [List.mem_singleton.mp hmem]
    exact ⟨none, ha2⟩)⟩

end HnApi
